import Mathlib

/-!
Verification of a personal-blog repository: the build-time content
pipeline (front-matter validation, slug derivation, date sorting) and two
small UI helpers.

The repository source ships the content documents, the theme-toggle
component and the home page, but not the loader configuration itself, so
the loader (schema validation, `deriveSlug`, `loadAll`) is modelled from
the specification; definitions taken directly from source files say so in
their doc comments.
-/

namespace Blog

/-- Modelled from the spec: a field-level validation error carrying the
offending file path, the field name and a message. The loader
configuration is absent from the provided sources. -/
structure ValidationError where
  file : String
  field : String
  message : String
deriving DecidableEq

/-- Modelled from the spec: the raw front matter of one MDX document, a
key/value metadata block in which any key may be absent. -/
structure RawFrontMatter where
  title : Option String
  description : Option String
  image : Option String
  date : Option String
  author : Option String
  published : Option Bool
deriving DecidableEq

/-- Modelled from the spec: one source document of the content directory,
identified by its filename, together with its parsed front matter. The
MDX body is opaque to the spec and carries no validated data, so it is
not modelled. -/
structure Document where
  filename : String
  fm : RawFrontMatter
deriving DecidableEq

/-- Modelled from the spec: a validated Post record. The date is kept both
as the authored string and as a numeric sort key. -/
structure Post where
  title : String
  description : Option String
  image : Option String
  date : String
  dateKey : Nat
  author : String
  published : Bool
  slug : String
deriving DecidableEq

instance {ε α : Type} [DecidableEq ε] [DecidableEq α] : DecidableEq (Except ε α) := fun a b =>
  match a, b with
  | .error e1, .error e2 =>
    if h : e1 = e2 then .isTrue (h ▸ rfl) else .isFalse (fun hc => h (Except.error.inj hc))
  | .ok x, .ok y =>
    if h : x = y then .isTrue (h ▸ rfl) else .isFalse (fun hc => h (Except.ok.inj hc))
  | .error _, .ok _ => .isFalse (fun hc => Except.noConfusion hc)
  | .ok _, .error _ => .isFalse (fun hc => Except.noConfusion hc)

/-- Modelled from the spec: split a list of characters on hyphens. -/
def splitDash : List Char → List (List Char)
  | [] => [[]]
  | c :: rest =>
    if c = '-' then [] :: splitDash rest
    else
      match splitDash rest with
      | [] => [[c]]
      | g :: gs => (c :: g) :: gs

/-- Modelled from the spec: read a nonempty all-digit character list as a
natural number. -/
def charsToNat? (cs : List Char) : Option Nat :=
  if cs ≠ [] ∧ cs.all Char.isDigit = true then
    some (cs.foldl (fun a c => 10 * a + (c.toNat - 48)) 0)
  else none

/-- Modelled from the spec: whether a year/month/day triple is a valid
calendar date, Gregorian leap years included. -/
def isValidDate (y m d : Nat) : Bool :=
  let leap := y % 4 == 0 && (y % 100 != 0 || y % 400 == 0)
  let dim :=
    if m == 2 then (if leap then 29 else 28)
    else if m == 4 || m == 6 || m == 9 || m == 11 then 30
    else 31
  decide (1 ≤ m) && decide (m ≤ 12) && decide (1 ≤ d) && decide (d ≤ dim)

/-- Modelled from the spec: parse a string as an ISO calendar date
(YYYY-MM-DD). The result is the sort key y * 10000 + m * 100 + d, whose
order on naturals agrees with calendar order; any malformed or
non-calendar input yields none. -/
def parseIsoDate (s : String) : Option Nat :=
  match splitDash s.toList with
  | [ys, ms, ds] =>
    match charsToNat? ys, charsToNat? ms, charsToNat? ds with
    | some y, some m, some d =>
      if ys.length = 4 ∧ ms.length = 2 ∧ ds.length = 2 ∧ isValidDate y m d = true then
        some (y * 10000 + m * 100 + d)
      else none
    | _, _, _ => none
  | _ => none

/-- Modelled from the spec: the characters a kebab-case slug may contain,
lowercase alphanumerics and hyphens only. -/
def isKebabChar (c : Char) : Bool :=
  c.isLower || c.isDigit || c == '-'

/-- Modelled from the spec: drop a trailing .mdx extension from a
filename; a filename without that extension is left unchanged. -/
def stripMdx (filename : String) : String :=
  let cs := filename.toList
  if cs.length ≥ 4 ∧ cs.drop (cs.length - 4) = ['.', 'm', 'd', 'x'] then
    String.mk (cs.take (cs.length - 4))
  else filename

/-- Modelled from the spec: deriveSlug strips the extension and asserts
kebab-case; a non-conforming filename is a validation error, not a silent
normalization. -/
def deriveSlug (filename : String) : Except ValidationError String :=
  let base := stripMdx filename
  if base ≠ "" ∧ base.toList.all isKebabChar = true then
    .ok base
  else
    .error ⟨filename, "filename", "filename is not kebab-case"⟩

/-- Modelled from the spec: validate one document against the front-matter
schema, deriving the slug from the filename and defaulting the published
flag to true when absent. The first failing field yields a field-level
error naming the file and the field. -/
def validateDoc (d : Document) : Except ValidationError Post :=
  match d.fm.title with
  | none => .error ⟨d.filename, "title", "missing required field"⟩
  | some t =>
    if t = "" then .error ⟨d.filename, "title", "must not be empty"⟩
    else
      match d.fm.date with
      | none => .error ⟨d.filename, "date", "missing required field"⟩
      | some ds =>
        match parseIsoDate ds with
        | none => .error ⟨d.filename, "date", "not a valid ISO calendar date"⟩
        | some key =>
          match d.fm.author with
          | none => .error ⟨d.filename, "author", "missing required field"⟩
          | some a =>
            if a = "" then .error ⟨d.filename, "author", "must not be empty"⟩
            else
              match deriveSlug d.filename with
              | .error e => .error e
              | .ok slug =>
                .ok { title := t
                      description := d.fm.description
                      image := d.fm.image
                      date := ds
                      dateKey := key
                      author := a
                      published := d.fm.published.getD true
                      slug := slug }

/-- Helper: whether a validation outcome is a success. -/
def isOkB : Except ValidationError Post → Bool
  | .ok _ => true
  | .error _ => false

/-- Helper: the error of a validation outcome, if any. -/
def exceptErr? : Except ValidationError Post → Option ValidationError
  | .error e => some e
  | .ok _ => none

/-- Helper: the post of a validation outcome, if any. -/
def exceptOk? : Except ValidationError Post → Option Post
  | .ok p => some p
  | .error _ => none

/-- Modelled from the spec: membership test on a list of slugs. -/
def memStr (s : String) : List String → Bool
  | [] => false
  | t :: rest => if s = t then true else memStr s rest

/-- Modelled from the spec: whether all slugs in a list are pairwise
distinct; a duplicate is a build-time collision. -/
def distinctSlugs : List String → Bool
  | [] => true
  | s :: rest => !memStr s rest && distinctSlugs rest

/-- Modelled from the spec: the first slug that collides with a later one,
used to report the collision. -/
def firstDupSlug : List String → Option String
  | [] => none
  | s :: rest => if memStr s rest then some s else firstDupSlug rest

/-- Modelled from the spec: the validation outcome of every document of a
directory snapshot, in directory order. -/
def validationResults (docs : List Document) : List (Except ValidationError Post) :=
  docs.map validateDoc

/-- Modelled from the spec: the validation errors collected across all
documents of a snapshot. -/
def validationErrors (docs : List Document) : List ValidationError :=
  (validationResults docs).filterMap exceptErr?

/-- Modelled from the spec: the validated posts of a snapshot, one per
document that passes the schema. -/
def okPosts (docs : List Document) : List Post :=
  (validationResults docs).filterMap exceptOk?

/-- Modelled from the spec: the descending-date order on posts used for
listing views; a may precede b exactly when the date of b is not after
the date of a. -/
def dateGE (a b : Post) : Prop := b.dateKey ≤ a.dateKey

instance : DecidableRel dateGE := fun a b => Nat.decLe b.dateKey a.dateKey

instance : IsTotal Post dateGE := ⟨fun a b => Nat.le_total b.dateKey a.dateKey⟩

instance : IsTrans Post dateGE := ⟨fun _ _ _ h1 h2 => Nat.le_trans h2 h1⟩

/-- Modelled from the spec: loadAll applies the schema to every document
of the snapshot, fails as a whole on any validation error or slug
collision, and otherwise returns the records sorted by date descending. -/
def loadAll (docs : List Document) : Except (List ValidationError) (List Post) :=
  if validationErrors docs = [] then
    if distinctSlugs ((okPosts docs).map Post.slug) = true then
      .ok (List.insertionSort dateGE (okPosts docs))
    else
      .error [⟨(firstDupSlug ((okPosts docs).map Post.slug)).getD "", "slug", "duplicate slug"⟩]
  else
    .error (validationErrors docs)

/-- The document src/content/blog/dependency-injection-in-Csharp.mdx of
the repository, filename and front matter transcribed from the source. -/
def diDoc : Document :=
  { filename := "dependency-injection-in-Csharp.mdx"
    fm := { title := some "Dependency Injection (DI) in C#"
            description := some "Complete guide to Dependency Injection (DI) in C# and .NET Core. Learn DI fundamentals, service lifetimes (Transient, Scoped, Singleton), service registration, and practical implementation with repository pattern examples."
            image := some "/images/blog/di.png"
            date := some "2025-07-23"
            author := some "AustinX"
            published := none } }

/-- The document src/content/blog/mastering-linq.mdx of the repository,
filename and front matter transcribed from the source. -/
def linqDoc : Document :=
  { filename := "mastering-linq.mdx"
    fm := { title := some "Mastering LINQ: Writing Clean, Efficient Data Queries in C#"
            description := some "A concise guide to mastering LINQ in C#, showing how to write expressive, type-safe data queries over collections, databases, XML, and JSON with practical examples and best practices."
            image := some "/images/blog/linq.png"
            date := some "2025-06-30"
            author := some "AustinX"
            published := none } }

/-- The two content documents of the repository whose filenames are known
from the source tree, in directory order. -/
def repoDocs : List Document := [diDoc, linqDoc]

/-- The Post record the modelled loader derives from mastering-linq.mdx. -/
def linqPost : Post :=
  { title := "Mastering LINQ: Writing Clean, Efficient Data Queries in C#"
    description := some "A concise guide to mastering LINQ in C#, showing how to write expressive, type-safe data queries over collections, databases, XML, and JSON with practical examples and best practices."
    image := some "/images/blog/linq.png"
    date := "2025-06-30"
    dateKey := 20250630
    author := "AustinX"
    published := true
    slug := "mastering-linq" }

/-- A three-document snapshot realizing the end-to-end scenario of the
spec: valid documents dated 2025-01-01, 2025-03-01 and 2025-02-01. -/
def scenarioDocs : List Document :=
  [ { filename := "first-post.mdx"
      fm := { title := some "First Post"
              description := none
              image := none
              date := some "2025-01-01"
              author := some "AustinX"
              published := none } }
  , { filename := "second-post.mdx"
      fm := { title := some "Second Post"
              description := none
              image := none
              date := some "2025-03-01"
              author := some "AustinX"
              published := none } }
  , { filename := "third-post.mdx"
      fm := { title := some "Third Post"
              description := none
              image := none
              date := some "2025-02-01"
              author := some "AustinX"
              published := none } } ]

/-- The records loadAll produces for the scenario snapshot, sorted by date
descending as the spec requires. -/
def scenarioSorted : List Post :=
  [ { title := "Second Post", description := none, image := none
      date := "2025-03-01", dateKey := 20250301, author := "AustinX"
      published := true, slug := "second-post" }
  , { title := "Third Post", description := none, image := none
      date := "2025-02-01", dateKey := 20250201, author := "AustinX"
      published := true, slug := "third-post" }
  , { title := "First Post", description := none, image := none
      date := "2025-01-01", dateKey := 20250101, author := "AustinX"
      published := true, slug := "first-post" } ]

/-- A document whose date front-matter value is not a calendar date. -/
def badDateDoc : Document :=
  { filename := "bad-date-post.mdx"
    fm := { title := some "Some Title"
            description := none
            image := none
            date := some "not-a-date"
            author := some "AustinX"
            published := none } }

/-- A document whose title is present but empty, a schema violation. -/
def emptyTitleDoc : Document :=
  { filename := "empty-title-post.mdx"
    fm := { title := some ""
            description := none
            image := none
            date := some "2025-01-02"
            author := some "AustinX"
            published := none } }

/-- A two-document snapshot in which both filenames derive the slug
hello-world. -/
def dupSlugDocs : List Document :=
  [ { filename := "hello-world.mdx"
      fm := { title := some "Hello One"
              description := none
              image := none
              date := some "2025-01-03"
              author := some "AustinX"
              published := none } }
  , { filename := "hello-world.mdx"
      fm := { title := some "Hello Two"
              description := none
              image := none
              date := some "2025-01-04"
              author := some "AustinX"
              published := none } } ]

/-- The three buttons rendered by the ThemeToggle component, transcribed
from src/components/theme-toggle.tsx: a sun, a moon and a monitor icon. -/
inductive ToggleButton
  | sunButton
  | moonButton
  | monitorButton
deriving DecidableEq

/-- The argument each onClick handler of ThemeToggle passes to setTheme,
transcribed from src/components/theme-toggle.tsx. -/
def setThemeArg : ToggleButton → String
  | .sunButton => "light"
  | .moonButton => "dark"
  | .monitorButton => "system"

/-- The sequence of values passed to setTheme by a sequence of clicks on
ThemeToggle buttons. -/
def themeValuesSet (clicks : List ToggleButton) : List String :=
  clicks.map setThemeArg

/-- The getBrandStyles helper of the home page, transcribed from
src/app/page.tsx. -/
def getBrandStyles (label : String) : String :=
  match label with
  | "Github" => "hover:bg-gray-400 hover:text-white hover:border-gray-400"
  | "Instagram" => "hover:bg-gradient-to-r hover:from-purple-500 hover:via-pink-500 hover:to-red-500 hover:text-white hover:border-transparent"
  | "Twitter" => "hover:bg-blue-400 hover:text-white hover:border-blue-400"
  | _ => "hover:bg-primary hover:text-white"

/-- Helper: a successful outcome is exactly an ok value. -/
theorem isOkB_iff (x : Except ValidationError Post) :
    isOkB x = true ↔ ∃ p, x = .ok p := by
  cases x <;> simp [isOkB]

/-- Helper: a successful outcome carries no error. -/
theorem exceptErr?_eq_none (x : Except ValidationError Post) (h : isOkB x = true) :
    exceptErr? x = none := by
  cases x <;> simp_all [isOkB, exceptErr?]

/-- Helper: inversion of a successful document validation, relating every
field of the produced Post record to the document. -/
theorem validateDoc_ok_inv (d : Document) (p : Post) (h : validateDoc d = .ok p) :
    (∃ t, d.fm.title = some t ∧ p.title = t ∧ t ≠ "") ∧
    (∃ ds, d.fm.date = some ds ∧ p.date = ds ∧ parseIsoDate ds = some p.dateKey) ∧
    (∃ a, d.fm.author = some a ∧ p.author = a ∧ a ≠ "") ∧
    deriveSlug d.filename = .ok p.slug ∧
    p.published = d.fm.published.getD true ∧
    p.description = d.fm.description ∧
    p.image = d.fm.image := by
  unfold validateDoc at h
  split at h
  · exact Except.noConfusion h
  next t htitle =>
    split at h
    · exact Except.noConfusion h
    next ht =>
      split at h
      · exact Except.noConfusion h
      next ds hdate =>
        split at h
        · exact Except.noConfusion h
        next key hkey =>
          split at h
          · exact Except.noConfusion h
          next a hauthor =>
            split at h
            · exact Except.noConfusion h
            next ha =>
              split at h
              · exact Except.noConfusion h
              next slug hslug =>
                have hp := Except.ok.inj h
                subst hp
                exact ⟨⟨t, htitle, rfl, ht⟩, ⟨ds, hdate, rfl, hkey⟩,
                  ⟨a, hauthor, rfl, ha⟩, hslug, rfl, rfl, rfl⟩

/-- Helper: an error of any document is collected into the snapshot's
validation errors. -/
theorem mem_validationErrors (docs : List Document) (d : Document) (e : ValidationError)
    (hd : d ∈ docs) (he : validateDoc d = .error e) : e ∈ validationErrors docs := by
  unfold validationErrors validationResults
  exact List.mem_filterMap.mpr ⟨validateDoc d, List.mem_map_of_mem _ hd, by rw [he]; rfl⟩

/-- Helper: when every document validates, no error is collected. -/
theorem validationErrors_eq_nil (docs : List Document) :
    (∀ d ∈ docs, isOkB (validateDoc d) = true) → validationErrors docs = [] := by
  induction docs with
  | nil => intro _; rfl
  | cons d rest ih =>
    intro hok
    show validationErrors (d :: rest) = []
    unfold validationErrors validationResults
    rw [List.map_cons, List.filterMap_cons,
      exceptErr?_eq_none _ (hok d (List.mem_cons_self d rest))]
    exact ih (fun x hx => hok x (List.mem_cons_of_mem d hx))

/-- Helper: when every document validates, one post is produced per
document. -/
theorem okPosts_length (docs : List Document) :
    (∀ d ∈ docs, isOkB (validateDoc d) = true) → (okPosts docs).length = docs.length := by
  induction docs with
  | nil => intro _; rfl
  | cons d rest ih =>
    intro hok
    obtain ⟨p, hp⟩ := (isOkB_iff _).mp (hok d (List.mem_cons_self d rest))
    show (okPosts (d :: rest)).length = (d :: rest).length
    unfold okPosts validationResults
    rw [List.map_cons, List.filterMap_cons, hp]
    simp only [exceptOk?, List.length_cons]
    exact congrArg (· + 1) (ih (fun x hx => hok x (List.mem_cons_of_mem d hx)))

/-- Helper: every produced post comes from some document that validates
to it. -/
theorem mem_okPosts (docs : List Document) (p : Post) (hp : p ∈ okPosts docs) :
    ∃ d ∈ docs, validateDoc d = .ok p := by
  unfold okPosts validationResults at hp
  rcases List.mem_filterMap.mp hp with ⟨x, hx, hxp⟩
  rcases List.mem_map.mp hx with ⟨d, hd, rfl⟩
  refine ⟨d, hd, ?_⟩
  cases hval : validateDoc d with
  | error e => rw [hval] at hxp; simp [exceptOk?] at hxp
  | ok q => rw [hval] at hxp; simp only [exceptOk?, Option.some.injEq] at hxp; rw [hxp]

/-- Helper: inversion of a successful loadAll. -/
theorem loadAll_ok_inv (docs : List Document) (posts : List Post)
    (h : loadAll docs = .ok posts) :
    validationErrors docs = [] ∧
    distinctSlugs ((okPosts docs).map Post.slug) = true ∧
    posts = List.insertionSort dateGE (okPosts docs) := by
  unfold loadAll at h
  split at h
  next hnil =>
    split at h
    next hdist => exact ⟨hnil, hdist, (Except.ok.inj h).symm⟩
    next => exact Except.noConfusion h
  next => exact Except.noConfusion h

/-- Helper: the boolean membership test agrees with list membership. -/
theorem memStr_iff (s : String) (l : List String) : memStr s l = true ↔ s ∈ l := by
  induction l with
  | nil => simp [memStr]
  | cons t rest ih =>
    by_cases h : s = t
    · simp [memStr, h]
    · simp [memStr, h, ih]

/-- Helper: the boolean distinctness test agrees with Nodup. -/
theorem distinctSlugs_iff (l : List String) : distinctSlugs l = true ↔ l.Nodup := by
  induction l with
  | nil => simp [distinctSlugs]
  | cons s rest ih =>
    simp [distinctSlugs, Bool.and_eq_true, ih, List.nodup_cons]
    intro _
    rw [← memStr_iff s rest]
    cases hm : memStr s rest <;> simp [hm]

/-- C1: the spec-modelled deriveSlug rejects the repository's own content
filename dependency-injection-in-Csharp.mdx as non-kebab-case (it contains
an uppercase letter), so the loader the spec describes fails the build on
the snapshot the repository actually ships. -/
theorem deriveSlug_rejects_repo_filename :
    deriveSlug "dependency-injection-in-Csharp.mdx" =
      .error ⟨"dependency-injection-in-Csharp.mdx", "filename", "filename is not kebab-case"⟩ ∧
    loadAll repoDocs =
      .error [⟨"dependency-injection-in-Csharp.mdx", "filename", "filename is not kebab-case"⟩] :=
  ⟨by decide, by decide⟩

/-- C2: loadAll returns the records sorted by date descending: whenever
the post at position i has a strictly later date than the post at
position j, position i comes first. -/
theorem loadAll_sorted_desc (docs : List Document) (posts : List Post)
    (h : loadAll docs = .ok posts) (i j : Fin posts.length)
    (hij : (posts.get j).dateKey < (posts.get i).dateKey) :
    (i : Nat) < (j : Nat) := by
  obtain ⟨-, -, hp⟩ := loadAll_ok_inv docs posts h
  have hs : List.Sorted dateGE posts := by
    rw [hp]; exact List.sorted_insertionSort dateGE (okPosts docs)
  by_contra hle
  rcases Nat.eq_or_lt_of_le (Nat.not_lt.mp hle) with heq | hlt
  · exact Nat.lt_irrefl _ (Fin.ext heq ▸ hij)
  · have hrel : dateGE (posts.get j) (posts.get i) := hs.rel_get_of_lt hlt
    exact Nat.lt_irrefl _ (Nat.lt_of_lt_of_le hij hrel)

/-- Witness for C2: on the spec's end-to-end scenario the posts come back
in the order 2025-03-01, 2025-02-01, 2025-01-01, and the later-dated post
at position 0 precedes the earlier-dated post at position 1. -/
theorem loadAll_sorted_desc_witness :
    loadAll scenarioDocs = .ok scenarioSorted ∧ (0 : Nat) < (1 : Nat) :=
  ⟨by decide,
   loadAll_sorted_desc scenarioDocs scenarioSorted (by decide)
     ⟨0, by decide⟩ ⟨1, by decide⟩ (by decide)⟩

/-- C3: loadAll is atomic: if any single document fails validation, the
whole operation returns an error and emits no collection at all. -/
theorem loadAll_atomic (docs : List Document) (d : Document) (e : ValidationError)
    (hd : d ∈ docs) (he : validateDoc d = .error e) :
    ∃ errs, loadAll docs = .error errs ∧ errs ≠ [] := by
  have hne : validationErrors docs ≠ [] :=
    List.ne_nil_of_mem (mem_validationErrors docs d e hd he)
  refine ⟨validationErrors docs, ?_, hne⟩
  unfold loadAll
  rw [if_neg hne]

/-- Witness for C3: a snapshot containing a document with an empty title
fails as a whole. -/
theorem loadAll_atomic_witness :
    ∃ errs, loadAll [emptyTitleDoc] = .error errs ∧ errs ≠ [] :=
  loadAll_atomic [emptyTitleDoc] emptyTitleDoc
    ⟨"empty-title-post.mdx", "title", "must not be empty"⟩ (by decide) (by decide)

/-- C4: on a snapshot whose documents all validate and whose slugs do not
collide, loadAll returns exactly one record per document, each record
validated from its document with title and author populated and the slug
derived from that document's filename. -/
theorem loadAll_complete (docs : List Document)
    (hok : ∀ d ∈ docs, isOkB (validateDoc d) = true)
    (hdist : distinctSlugs ((okPosts docs).map Post.slug) = true) :
    ∃ posts, loadAll docs = .ok posts ∧ posts.length = docs.length ∧
      ∀ p ∈ posts,
        (∃ d ∈ docs, validateDoc d = .ok p ∧ deriveSlug d.filename = .ok p.slug) ∧
        p.title ≠ "" ∧ p.author ≠ "" := by
  have hnil := validationErrors_eq_nil docs hok
  refine ⟨List.insertionSort dateGE (okPosts docs), ?_, ?_, ?_⟩
  · unfold loadAll
    rw [if_pos hnil, if_pos hdist]
  · rw [(List.perm_insertionSort dateGE (okPosts docs)).length_eq]
    exact okPosts_length docs hok
  · intro p hp
    have hp2 : p ∈ okPosts docs := (List.mem_insertionSort dateGE).mp hp
    obtain ⟨d, hd, hval⟩ := mem_okPosts docs p hp2
    obtain ⟨⟨t, -, hpt, ht⟩, -, ⟨a, -, hpa, ha⟩, hslug, -, -, -⟩ :=
      validateDoc_ok_inv d p hval
    exact ⟨⟨d, hd, hval, hslug⟩, by rw [hpt]; exact ht, by rw [hpa]; exact ha⟩

/-- Witness for C4: the scenario snapshot yields one record per document
with the stated properties. -/
theorem loadAll_complete_witness :
    ∃ posts, loadAll scenarioDocs = .ok posts ∧ posts.length = scenarioDocs.length ∧
      ∀ p ∈ posts,
        (∃ d ∈ scenarioDocs, validateDoc d = .ok p ∧ deriveSlug d.filename = .ok p.slug) ∧
        p.title ≠ "" ∧ p.author ≠ "" :=
  loadAll_complete scenarioDocs (by decide) (by decide)

/-- C5: slugs are unique in any collection loadAll returns, and when every
document validates but two derive the same slug, loadAll fails with a
build-time error. -/
theorem slugs_unique (docs : List Document) :
    (∀ posts, loadAll docs = .ok posts → (posts.map Post.slug).Nodup) ∧
    ((∀ d ∈ docs, isOkB (validateDoc d) = true) →
      ¬ ((okPosts docs).map Post.slug).Nodup →
      ∃ errs, loadAll docs = .error errs) := by
  constructor
  · intro posts h
    obtain ⟨-, hdist, hp⟩ := loadAll_ok_inv docs posts h
    have hnd : ((okPosts docs).map Post.slug).Nodup := (distinctSlugs_iff _).mp hdist
    have hperm : (posts.map Post.slug).Perm ((okPosts docs).map Post.slug) := by
      rw [hp]; exact (List.perm_insertionSort dateGE (okPosts docs)).map Post.slug
    exact hperm.nodup_iff.mpr hnd
  · intro hok hnd
    have hnil := validationErrors_eq_nil docs hok
    have hdist : ¬ distinctSlugs ((okPosts docs).map Post.slug) = true :=
      fun hc => hnd ((distinctSlugs_iff _).mp hc)
    refine ⟨[⟨(firstDupSlug ((okPosts docs).map Post.slug)).getD "", "slug", "duplicate slug"⟩], ?_⟩
    unfold loadAll
    rw [if_pos hnil, if_neg hdist]

/-- Witness for C5: two documents both deriving the slug hello-world make
loadAll fail. -/
theorem slugs_unique_witness :
    ∃ errs, loadAll dupSlugDocs = .error errs :=
  (slugs_unique dupSlugDocs).2 (by decide) (by decide)

/-- C6: a document whose front matter omits the published field yields a
Post record with published = true. -/
theorem published_defaults_true (d : Document) (p : Post)
    (hpub : d.fm.published = none) (h : validateDoc d = .ok p) :
    p.published = true := by
  obtain ⟨-, -, -, -, hp, -, -⟩ := validateDoc_ok_inv d p h
  rw [hp, hpub]
  rfl

set_option maxRecDepth 100000 in
/-- Witness for C6: mastering-linq.mdx omits the published key and its
record has published = true. -/
theorem published_defaults_true_witness :
    linqDoc.fm.published = none ∧ validateDoc linqDoc = .ok linqPost ∧
    linqPost.published = true :=
  ⟨rfl, by decide, published_defaults_true linqDoc linqPost rfl (by decide)⟩

/-- C7: a document whose date value does not parse as an ISO calendar date
is rejected with a field-level error citing the date field and naming the
offending file; it never yields a Post record. -/
theorem date_validation_rejects (d : Document) (t s : String)
    (htitle : d.fm.title = some t) (ht : t ≠ "")
    (hdate : d.fm.date = some s) (hbad : parseIsoDate s = none) :
    validateDoc d = .error ⟨d.filename, "date", "not a valid ISO calendar date"⟩ := by
  unfold validateDoc
  simp [htitle, hdate, hbad, ht]

/-- Witness for C7: a document with date not-a-date is rejected with an
error citing the date field of bad-date-post.mdx. -/
theorem date_validation_rejects_witness :
    validateDoc badDateDoc =
      .error ⟨"bad-date-post.mdx", "date", "not a valid ISO calendar date"⟩ :=
  date_validation_rejects badDateDoc "Some Title" "not-a-date" rfl (by decide) rfl (by decide)

/-- C8: loadAll is deterministic and idempotent: invoked on the same
unchanged snapshot it returns identical sequences; in this embedding the
loader is a pure function of the snapshot, as the spec states. -/
theorem loadAll_deterministic (docs1 docs2 : List Document) (h : docs1 = docs2) :
    loadAll docs1 = loadAll docs2 := by
  rw [h]

/-- Witness for C8: two invocations on the repository snapshot agree. -/
theorem loadAll_deterministic_witness :
    repoDocs = repoDocs ∧ loadAll repoDocs = loadAll repoDocs :=
  ⟨rfl, loadAll_deterministic repoDocs repoDocs rfl⟩

/-- C9: every value the ThemeToggle component passes to setTheme over any
sequence of clicks is one of light, dark or system. -/
theorem themeToggle_values (clicks : List ToggleButton) (v : String)
    (hv : v ∈ themeValuesSet clicks) :
    v = "light" ∨ v = "dark" ∨ v = "system" := by
  rcases List.mem_map.mp hv with ⟨b, -, rfl⟩
  cases b <;> simp [setThemeArg]

/-- Witness for C9: clicking the sun button passes light. -/
theorem themeToggle_values_witness :
    "light" ∈ themeValuesSet [ToggleButton.sunButton] ∧
    ("light" = "light" ∨ "light" = "dark" ∨ "light" = "system") :=
  ⟨by decide, themeToggle_values [ToggleButton.sunButton] "light" (by decide)⟩

/-- C10: getBrandStyles is total and deterministic: Github, Instagram and
Twitter map to their fixed brand hover classes, every other label maps to
the default class, and no label maps to the empty string. -/
theorem getBrandStyles_spec :
    getBrandStyles "Github" = "hover:bg-gray-400 hover:text-white hover:border-gray-400" ∧
    getBrandStyles "Instagram" = "hover:bg-gradient-to-r hover:from-purple-500 hover:via-pink-500 hover:to-red-500 hover:text-white hover:border-transparent" ∧
    getBrandStyles "Twitter" = "hover:bg-blue-400 hover:text-white hover:border-blue-400" ∧
    (∀ label, label ≠ "Github" → label ≠ "Instagram" → label ≠ "Twitter" →
      getBrandStyles label = "hover:bg-primary hover:text-white") ∧
    (∀ label, getBrandStyles label ≠ "") := by
  refine ⟨rfl, rfl, rfl, ?_, ?_⟩
  · intro label h1 h2 h3
    unfold getBrandStyles
    split
    · exact absurd rfl h1
    · exact absurd rfl h2
    · exact absurd rfl h3
    · rfl
  · intro label
    unfold getBrandStyles
    split <;> decide

/-- Witness for C10: a label outside the three branded ones gets the
default class, which is nonempty. -/
theorem getBrandStyles_spec_witness :
    getBrandStyles "LinkedIn" = "hover:bg-primary hover:text-white" ∧
    getBrandStyles "LinkedIn" ≠ "" :=
  ⟨getBrandStyles_spec.2.2.2.1 "LinkedIn" (by decide) (by decide) (by decide),
   getBrandStyles_spec.2.2.2.2 "LinkedIn"⟩

end Blog
